import Mathlib

/-!
# Verification of graft (git worktree + zellij session orchestrator)

Shallow embedding of the core logic of `src/main.rs` and proofs about it.
External tool invocations (git, zellij) are modelled by explicit state
records and effect functions; the effect functions for the external tools
follow the behaviour the design document ascribes to them at their
interface (they are collaborators, not code of this repository).
-/

namespace Graft

/-- Constant `SESSION_PREFIX` from `main.rs`. -/
def SESSION_PREFIX : String := "wt-"

/-- Rust `str::replace(c, r)` with a single-character pattern and a
single-character replacement: every occurrence of the character `c` is
replaced by `r`, all other characters kept. -/
def rustCharReplace (s : String) (c r : Char) : String :=
  ⟨s.data.map (fun x => if x = c then r else x)⟩

/-- Function `session_name` from `main.rs` (lines 271-273):
`format!("{SESSION_PREFIX}{}", branch.replace('/', "-"))`. -/
def session_name (branch : String) : String :=
  SESSION_PREFIX ++ rustCharReplace branch '/' '-'

/-- Rust `str::starts_with`, character-wise: the characters of `p` are a
prefix of the characters of `s`. -/
def strStartsWith (s p : String) : Bool :=
  p.data.isPrefixOf s.data

/-- Dropping the first `n` characters of a string (`&s[n..]` at a character
boundary; the prefixes sliced off in this code are ASCII). -/
def strDrop (s : String) (n : Nat) : String :=
  ⟨s.data.drop n⟩

/-- Rust `str::strip_prefix`: `some` of the remainder when `p` is a prefix
of `s`, otherwise `none`. -/
def stripPre (p s : String) : Option String :=
  if strStartsWith s p then some (strDrop s p.length) else none

/-! ## Stale-session pruning (`prune_stale_sessions`, main.rs lines 366-398)

The directory tree below the worktree base directory is modelled as the
list of relative paths (component lists) of the directories that exist on
disk.  `fs::read_dir` on the base directory yields its immediate children
only; its possible failure is the `none` case. -/

/-- The names of the immediate child directories of the worktree base:
exactly the directories whose relative path has a single component.
(`entry.path().file_name()` of a direct `read_dir` entry.) -/
def topLevelDirNames (dirs : List (List String)) : List String :=
  dirs.filterMap (fun p => match p with | [n] => some n | _ => none)

/-- The `keep` flag computed per session in `prune_stale_sessions`:
scan the `read_dir` entries of the worktree base (when the read fails the
loop body never runs and `keep` stays `false`), and keep the session when
some immediate child directory name, with `/` replaced by `-`, equals the
prefix-stripped session name. -/
def sessionKeep (readDirRes : Option (List (List String))) (suffix : String) : Bool :=
  match readDirRes with
  | none => false
  | some dirs =>
      (topLevelDirNames dirs).any (fun n => rustCharReplace n '/' '-' == suffix)

/-- Function `prune_stale_sessions` from `main.rs` (lines 366-398), returning the
list of sessions it deletes: sessions not starting with `wt-` are skipped;
a prefixed session is deleted exactly when its `keep` flag is false. -/
def prune_stale_sessions (readDirRes : Option (List (List String)))
    (sessions : List String) : List String :=
  sessions.filter (fun s =>
    strStartsWith s SESSION_PREFIX &&
      ! sessionKeep readDirRes (strDrop s SESSION_PREFIX.length))

/-! ## Branch handling (`ensure_branch_exists`, main.rs lines 157-173) -/

/-- Observed branch state: local branches and remote branches with their
tip commits, plus the current HEAD commit. -/
structure BrState where
  localTips : List (String × String)
  remoteTips : List (String × String)
  headCommit : String
deriving DecidableEq, Repr

/-- Function `git_local_branch_exists` (main.rs lines 280-291): does a local branch
of this name exist? -/
def git_local_branch_exists (st : BrState) (b : String) : Bool :=
  st.localTips.any (fun p => p.1 == b)

/-- Function `git_remote_branch_exists` (main.rs lines 293-301): does the remote
have a branch of this name? -/
def git_remote_branch_exists (st : BrState) (b : String) : Bool :=
  st.remoteTips.any (fun p => p.1 == b)

/-- Modelled from the spec: effect of `git fetch origin b:b` — the external
version-control tool fetches the named branch from the remote into a
same-named local ref at the remote tip (spec section 6). -/
def gitFetch (st : BrState) (b : String) : BrState :=
  match st.remoteTips.lookup b with
  | some tip => { st with localTips := (b, tip) :: st.localTips }
  | none => st

/-- Modelled from the spec: effect of `git branch b` — the external
version-control tool creates a local branch at the current HEAD commit
(spec section 6). -/
def gitBranchCreate (st : BrState) (b : String) : BrState :=
  { st with localTips := (b, st.headCommit) :: st.localTips }

/-- Which of the three cases of `ensure_branch_exists` ran. -/
inductive BrAction
  | noop
  | fetch
  | create
deriving DecidableEq, Repr

/-- Function `ensure_branch_exists` from `main.rs` (lines 157-173): local branch
present → no-op; else remote branch present → fetch it into a same-named
local branch; else create a new local branch from the current HEAD. -/
def ensure_branch_exists (st : BrState) (b : String) : BrState × BrAction :=
  if git_local_branch_exists st b then (st, .noop)
  else if git_remote_branch_exists st b then (gitFetch st b, .fetch)
  else (gitBranchCreate st b, .create)

/-! ## Removal and ephemeral cleanup (`rm_branch` main.rs lines 106-124,
`remove_worktree` lines 250-263, `open_branch` lines 73-104)

`Act` records the external tool invocations that mutate shared state, in
the order they are attempted.  The `*Ok` fields of `RmWorld` are the exit
statuses the external tools would report for the corresponding call. -/

/-- Decidable equality of operation results. -/
instance : DecidableEq (Except String Unit)
  | .ok (), .ok () => isTrue rfl
  | .ok (), .error _ => isFalse fun hc => Except.noConfusion hc
  | .error _, .ok () => isFalse fun hc => Except.noConfusion hc
  | .error x, .error y =>
      if h : x = y then isTrue (by rw [h])
      else isFalse fun hc => h (by injection hc)

/-- A mutating external tool invocation. -/
inductive Act
  | deleteSession
  | prune
  | wtRemove
  | wtAdd
  | branchDelete
deriving DecidableEq, Repr

/-- Environment for the removal paths: whether the derived worktree path
exists on disk, and the exit statuses of the fallible tool calls. -/
structure RmWorld where
  worktreeOnDisk : Bool
  pruneOk : Bool
  removeOk : Bool
  branchDeleteOk : Bool
deriving DecidableEq, Repr

/-- Function `remove_worktree` from `main.rs` (lines 250-263): when the path does
not exist on disk, run `git worktree prune` (whose failure propagates via
`?`) and return `Ok`; otherwise run `git worktree remove --force`, whose
failure propagates.  Returns the result and the tool calls attempted. -/
def remove_worktree (w : RmWorld) : Except String Unit × List Act :=
  if !w.worktreeOnDisk then
    (if w.pruneOk then .ok () else .error "git returned non-zero exit code",
     [.prune])
  else
    (if w.removeOk then .ok () else .error "git returned non-zero exit code",
     [.wtRemove])

/-- Whether `remove_worktree` succeeds in world `w`. -/
def removeWorktreeOk (w : RmWorld) : Bool :=
  if w.worktreeOnDisk then w.removeOk else w.pruneOk

/-- Function `rm_branch` from `main.rs` (lines 106-124): best-effort session delete
(result discarded), then `remove_worktree` with `?`, then, only when the
flag is set, `delete_local_branch` with `?`. -/
def rm_branch (w : RmWorld) (delete_branch_flag : Bool) :
    Except String Unit × List Act :=
  let t0 : List Act := [.deleteSession]
  match remove_worktree w with
  | (.error e, t) => (.error e, t0 ++ t)
  | (.ok _, t) =>
      if delete_branch_flag then
        (if w.branchDeleteOk then .ok ()
         else .error "git returned non-zero exit code",
         t0 ++ t ++ [.branchDelete])
      else (.ok (), t0 ++ t)

/-- The tail of `open_branch` (main.rs lines 88-103), after `launch_zellij`
has returned `statusSuccess`: when ephemeral, attempt session deletion,
worktree removal and (if requested) branch deletion, each with its result
discarded (`let _ =`); then fail exactly when zellij exited non-zero. -/
def open_after_launch (statusSuccess ephemeral delete_branch : Bool)
    (w : RmWorld) : Except String Unit × List Act :=
  let cleanup : List Act :=
    if ephemeral then
      [Act.deleteSession] ++ (remove_worktree w).2 ++
        (if delete_branch then [Act.branchDelete] else [])
    else []
  (if !statusSuccess then .error "Zellij exited with non-zero status"
   else .ok (), cleanup)

/-! ## Worktree reconciliation (`ensure_worktree`, main.rs lines 175-207) -/

/-- State of the derived worktree path: whether the version-control tool's
registry knows it (`registered`), what is on disk at the path (`onDisk`:
`none` = nothing, `some true` = a directory, `some false` = a
non-directory), and the exit statuses of the fallible tool calls
(`pruneOk`; `addExistingDirOk` is whether `git worktree add` accepts the
already-existing directory at the path). -/
structure GitWt where
  registered : Bool
  onDisk : Option Bool
  pruneOk : Bool
  addExistingDirOk : Bool
deriving DecidableEq, Repr

/-- Modelled from the spec: effect of `git worktree prune` — drops registry
entries whose directories no longer exist (spec sections 4.5 and 6); the
filesystem is untouched. -/
def wtPrune (st : GitWt) : GitWt :=
  { st with registered := st.registered && st.onDisk == some true }

/-- Modelled from the spec: effect of `git worktree remove --force` — if
the path is registered, drop the registration and delete the directory if
present (spec section 6); otherwise nothing happens. -/
def wtForceRemove (st : GitWt) : GitWt :=
  if st.registered then
    { st with registered := false,
              onDisk := if st.onDisk == some true then none else st.onDisk }
  else st

/-- Modelled from the spec: `git worktree add <path> <branch>` — succeeds
when nothing is at the path (creating the directory and registering it), or
when a directory the tool accepts is already there; fails otherwise
(spec section 6). -/
def wtAddResult (st : GitWt) : Except String Unit × GitWt :=
  let ok := match st.onDisk with
    | none => true
    | some true => st.addExistingDirOk
    | some false => false
  if ok then (.ok (), { st with registered := true, onDisk := some true })
  else (.error "git returned non-zero exit code", st)

/-- Function `ensure_worktree` from `main.rs` (lines 175-207): reuse when registered
and materialized; otherwise prune (failure propagates), error out if the
path exists but is not a directory, best-effort force-remove a lingering
registration, then add the worktree (failure propagates).  Returns the
result, the final state, and the mutating tool calls attempted. -/
def ensure_worktree (p : String) (st : GitWt) :
    Except String Unit × GitWt × List Act :=
  let exists_in_git := st.registered
  let dir_exists := st.onDisk == some true
  if exists_in_git && dir_exists then
    (.ok (), st, [])
  else
    if !st.pruneOk then
      (.error "git returned non-zero exit code", st, [.prune])
    else
      let st1 := wtPrune st
      if st1.onDisk == some false then
        (.error ("Worktree path exists but is not a directory: " ++ p),
         st1, [.prune])
      else
        let step2 :=
          if exists_in_git && !dir_exists then (wtForceRemove st1, [Act.wtRemove])
          else (st1, ([] : List Act))
        match wtAddResult step2.1 with
        | (.ok _, st3) => (.ok (), st3, [Act.prune] ++ step2.2 ++ [Act.wtAdd])
        | (.error e, st3) =>
            (.error e, st3, [Act.prune] ++ step2.2 ++ [Act.wtAdd])

/-! ## Worktree listing parser (`list_worktrees`, main.rs lines 315-343) -/

/-- Rust `str::trim`: whitespace removed from both ends. -/
def rustTrim (s : String) : String :=
  ⟨((s.data.dropWhile Char.isWhitespace).reverse.dropWhile
      Char.isWhitespace).reverse⟩

/-- One parsed record of `git worktree list --porcelain`. -/
structure WorktreeInfo where
  path : String
  branch : Option String
deriving DecidableEq, Repr

/-- The branch-ref post-processing of `list_worktrees` (main.rs lines
330-335): the local-ref prefix `refs/heads/` is stripped, any other ref is
kept verbatim. -/
def stripHeads (rest : String) : String :=
  match stripPre "refs/heads/" rest with
  | some s => s
  | none => rest

/-- The per-line loop of `list_worktrees` (main.rs lines 319-341) with its
two accumulators `current_path` and `current_branch`: a trimmed line
starting with `worktree ` flushes the pending record and opens a new one;
a trimmed line starting with `branch ` overwrites the pending branch; any
other line is ignored; the pending record is flushed at end of input. -/
def list_worktrees_go : List String → Option String → Option String →
    List WorktreeInfo
  | [], cp, cb =>
      match cp with
      | some p => [⟨p, cb⟩]
      | none => []
  | l :: ls, cp, cb =>
      let t := rustTrim l
      match stripPre "worktree " t with
      | some rest =>
          (match cp with
           | some p => [⟨p, cb⟩]
           | none => []) ++ list_worktrees_go ls (some rest) none
      | none =>
          match stripPre "branch " t with
          | some rest => list_worktrees_go ls cp (some (stripHeads rest))
          | none => list_worktrees_go ls cp cb

/-- Function `list_worktrees` from `main.rs` (lines 315-343), on the lines of the
captured porcelain output. -/
def list_worktrees (lines : List String) : List WorktreeInfo :=
  list_worktrees_go lines none none

/-- Does this line introduce a new worktree by path? -/
def isWtLine (l : String) : Bool :=
  (stripPre "worktree " (rustTrim l)).isSome

/-- The branch ref named by this attribute line, if any. -/
def branchAttr (l : String) : Option String :=
  stripPre "branch " (rustTrim l)

/-- The fold the parser's `current_branch` accumulator performs over the
attribute lines of one block. -/
def foldBranchAcc (cb : Option String) (blk : List String) : Option String :=
  blk.foldl (fun acc l =>
    match branchAttr l with
    | some rest => some (stripHeads rest)
    | none => acc) cb

/-- Claim-side reading: the branch associated to a block of attribute
lines is the ref named by the last branch-attribute line of the block,
with the local-ref prefix stripped and other refs kept verbatim. -/
def blockBranch (blk : List String) : Option String :=
  (blk.reverse.findSome? branchAttr).map stripHeads

/-- Claim-side reading of the listing format: exactly one record per
path-introducing line, in input order, whose branch comes from the
attribute lines strictly between that line and the next path-introducing
line (or the end of the output). -/
def specWorktrees : List String → List WorktreeInfo
  | [] => []
  | l :: ls =>
      match stripPre "worktree " (rustTrim l) with
      | some rest =>
          ⟨rest, blockBranch (ls.takeWhile (fun x => ! isWtLine x))⟩ ::
            specWorktrees (ls.dropWhile (fun x => ! isWtLine x))
      | none => specWorktrees ls
termination_by ls => ls.length
decreasing_by
  · simp only [List.length_cons]
    exact Nat.lt_succ_of_le
      (List.Sublist.length_le (List.dropWhile_sublist _))
  · simp only [List.length_cons]
    exact Nat.lt_succ_self _

/-! ## Session listing (`list_zellij_sessions`, main.rs lines 345-364) -/

/-- Rust `split_whitespace().next().unwrap_or("")`: the first maximal run
of non-whitespace characters of the line. -/
def firstWhitespaceToken (l : String) : String :=
  ⟨(l.data.dropWhile Char.isWhitespace).takeWhile (fun c => ! c.isWhitespace)⟩

/-- Function `list_zellij_sessions` from `main.rs` (lines 345-364), given the exit
status and the stdout lines of `zellij list-sessions`: a non-success exit
yields the empty list; otherwise each line contributes the trimmed first
whitespace-delimited token, empty tokens skipped.  (A failure to spawn the
process at all is outside this model; it is the only `Err` path of the
source function.) -/
def list_zellij_sessions (success : Bool) (lines : List String) :
    List String :=
  if !success then []
  else
    lines.filterMap (fun l =>
      if rustTrim (firstWhitespaceToken l) = "" then none
      else some (rustTrim (firstWhitespaceToken l)))

/-- A blank line: every character is whitespace. -/
def isBlankLine (l : String) : Bool :=
  l.data.all Char.isWhitespace

/-- Claim-side reading: the first whitespace-delimited token of each line,
blank lines skipped. -/
def specSessions (lines : List String) : List String :=
  (lines.filter (fun l => ! isBlankLine l)).map firstWhitespaceToken

end Graft

/-- C5: for every branch name, the session name is the fixed prefix `wt-`
followed by the branch name with every `/` replaced by `-`; the function is
pure, hence deterministic, and `session_name "feature/x" = "wt-feature-x"`. -/
theorem session_name_spec (branch : String) :
    Graft.session_name branch =
      ⟨'w' :: 't' :: '-' ::
        branch.data.map (fun c => if c = '/' then '-' else c)⟩ ∧
    Graft.session_name branch = Graft.session_name branch ∧
    Graft.session_name "feature/x" = "wt-feature-x" := by
  refine ⟨?_, rfl, by decide⟩
  rfl

/-- C6: the two distinct branch names `a/b` and `a-b`, which differ only in
using the path separator versus the flat-safe hyphen, collide: their derived
session names are equal. -/
theorem session_name_collision :
    Graft.session_name "a/b" = Graft.session_name "a-b" ∧ "a/b" ≠ "a-b" := by
  decide

/-- C1: the code violates the claimed invariant.  For the hierarchical
branch `feature/x` the derived session is `wt-feature-x` and the derived
worktree directory is the nested path `feature/x` under the worktree base.
With that directory present on disk (so the base holds the directory
`feature`, which in turn holds `x`), the prune pass nevertheless deletes
the session `wt-feature-x`: `read_dir` only yields the immediate child
`feature`, whose name never contains a separator, so no entry matches the
suffix `feature-x` and `keep` stays false. -/
theorem prune_deletes_live_nested_worktree_session :
    Graft.session_name "feature/x" = "wt-feature-x" ∧
    ["feature", "x"] ∈ [["feature"], ["feature", "x"]] ∧
    Graft.prune_stale_sessions (some [["feature"], ["feature", "x"]])
      ["wt-feature-x"] = ["wt-feature-x"] := by
  refine ⟨by decide, by decide, by decide⟩

/-- If some entry of an association list has first component `b`, then
looking `b` up in the list succeeds. -/
theorem lookup_isSome_of_any_fst (l : List (String × String)) (b : String)
    (h : l.any (fun p => p.1 == b) = true) : (l.lookup b).isSome := by
  induction l with
  | nil => simp at h
  | cons kv t ih =>
      obtain ⟨k, v⟩ := kv
      by_cases hk : b = k
      · subst hk
        simp [List.lookup]
      · have hbk : (b == k) = false := by simp [hk]
        have hkb : (k == b) = false := by
          simp only [beq_eq_false_iff_ne, ne_eq]
          exact fun hEq => hk hEq.symm
        have h' : t.any (fun p => p.1 == b) = true := by
          simpa [List.any_cons, hkb] using h
        simpa [List.lookup, hbk] using ih h'

/-- C2: `ensure_branch_exists` checks three mutually exclusive cases in
priority order — local branch present: no mutation and no action; else
remote branch present: fetch it into a same-named local branch carrying the
remote tip; else: create a local branch at the current HEAD — and in every
case a local branch of the requested name exists afterwards. -/
theorem ensure_branch_exists_spec (st : Graft.BrState) (b : String) :
    Graft.git_local_branch_exists (Graft.ensure_branch_exists st b).1 b = true ∧
    (Graft.git_local_branch_exists st b = true →
      Graft.ensure_branch_exists st b = (st, .noop)) ∧
    (Graft.git_local_branch_exists st b = false →
      Graft.git_remote_branch_exists st b = true →
      (Graft.ensure_branch_exists st b).2 = .fetch ∧
      (Graft.ensure_branch_exists st b).1.localTips.lookup b =
        st.remoteTips.lookup b) ∧
    (Graft.git_local_branch_exists st b = false →
      Graft.git_remote_branch_exists st b = false →
      (Graft.ensure_branch_exists st b).2 = .create ∧
      (Graft.ensure_branch_exists st b).1.localTips.lookup b =
        some st.headCommit) := by
  by_cases hl : Graft.git_local_branch_exists st b = true
  · have he : Graft.ensure_branch_exists st b = (st, .noop) := by
      unfold Graft.ensure_branch_exists
      rw [hl]
      simp
    refine ⟨?_, fun _ => he, ?_, ?_⟩
    · rw [he]
      exact hl
    · intro h _
      rw [hl] at h
      cases h
    · intro h _
      rw [hl] at h
      cases h
  · have hl' : Graft.git_local_branch_exists st b = false :=
      Bool.eq_false_iff.mpr hl
    by_cases hr : Graft.git_remote_branch_exists st b = true
    · obtain ⟨tip, htip⟩ := Option.isSome_iff_exists.mp
        (lookup_isSome_of_any_fst st.remoteTips b hr)
      have he : Graft.ensure_branch_exists st b = (Graft.gitFetch st b, .fetch) := by
        unfold Graft.ensure_branch_exists
        rw [hl', hr]
        simp
      have hf : Graft.gitFetch st b =
          { st with localTips := (b, tip) :: st.localTips } := by
        unfold Graft.gitFetch
        rw [htip]
      refine ⟨?_, ?_, ?_, ?_⟩
      · rw [he, hf]
        simp [Graft.git_local_branch_exists, List.any_cons]
      · intro h
        rw [hl'] at h
        cases h
      · intro _ _
        refine ⟨by rw [he], ?_⟩
        rw [he, hf, htip]
        simp [List.lookup]
      · intro _ h
        rw [hr] at h
        cases h
    · have hr' : Graft.git_remote_branch_exists st b = false :=
        Bool.eq_false_iff.mpr hr
      have he : Graft.ensure_branch_exists st b =
          (Graft.gitBranchCreate st b, .create) := by
        unfold Graft.ensure_branch_exists
        rw [hl', hr']
        simp
      refine ⟨?_, ?_, ?_, ?_⟩
      · rw [he]
        simp [Graft.git_local_branch_exists, Graft.gitBranchCreate,
          List.any_cons]
      · intro h
        rw [hl'] at h
        cases h
      · intro _ h
        rw [hr'] at h
        cases h
      · intro _ _
        refine ⟨by rw [he], ?_⟩
        rw [he]
        simp [Graft.gitBranchCreate, List.lookup]

/-- Concrete instance of C2: opening a branch that exists nowhere creates
it locally at the current HEAD. -/
theorem ensure_branch_exists_spec_witness :
    (Graft.ensure_branch_exists ⟨[], [], "h0"⟩ "x").2 = .create ∧
    (Graft.ensure_branch_exists ⟨[], [], "h0"⟩ "x").1.localTips.lookup "x" =
      some "h0" :=
  (ensure_branch_exists_spec ⟨[], [], "h0"⟩ "x").2.2.2 (by decide) (by decide)

/-- C3: the claim fails on the code.  With no worktree on disk for the
branch (and the registry prune succeeding), `rm_branch` returns `Ok`
rather than an error: `remove_worktree` treats a missing path as success
after pruning the registry. -/
theorem rm_branch_missing_worktree_succeeds :
    (⟨false, true, true, true⟩ : Graft.RmWorld).worktreeOnDisk = false ∧
    (Graft.rm_branch ⟨false, true, true, true⟩ false).1 = Except.ok () := by
  decide

/-- C3 (amended): `rm_branch` first attempts a best-effort session delete,
then the worktree-removal step, then — only when requested and only when
the removal step succeeded — the branch deletion; a failure of the removal
step or of the requested branch deletion surfaces as an error; and when no
worktree exists on disk the removal step prunes the registry and succeeds
instead of failing. -/
theorem rm_branch_spec (w : Graft.RmWorld) (f : Bool) :
    (Graft.rm_branch w f).2 =
      [Graft.Act.deleteSession] ++ (Graft.remove_worktree w).2 ++
        (if f && Graft.removeWorktreeOk w then [Graft.Act.branchDelete]
         else []) ∧
    ((Graft.rm_branch w f).1 = Except.ok () ↔
      (Graft.removeWorktreeOk w = true ∧
        (f = true → w.branchDeleteOk = true))) ∧
    (Graft.removeWorktreeOk w = true ↔
      (Graft.remove_worktree w).1 = Except.ok ()) ∧
    (w.worktreeOnDisk = false → w.pruneOk = true →
      (Graft.rm_branch w false).1 = Except.ok ()) := by
  rcases w with ⟨od, pk, rk, bk⟩
  cases od <;> cases pk <;> cases rk <;> cases bk <;> cases f <;> decide

/-- Concrete instance of C3 (amended): removal with a present worktree,
successful tools, and branch deletion requested performs session delete,
worktree remove, branch delete in order and succeeds. -/
theorem rm_branch_spec_witness :
    (Graft.rm_branch ⟨true, true, true, true⟩ true).2 =
      [Graft.Act.deleteSession] ++
        (Graft.remove_worktree ⟨true, true, true, true⟩).2 ++
        (if true && Graft.removeWorktreeOk ⟨true, true, true, true⟩ then
          [Graft.Act.branchDelete] else []) ∧
    (Graft.rm_branch ⟨false, true, true, true⟩ false).1 = Except.ok () :=
  ⟨(rm_branch_spec ⟨true, true, true, true⟩ true).1,
   (rm_branch_spec ⟨false, true, true, true⟩ false).2.2.2 rfl rfl⟩

/-- C4: in an ephemeral Open, after the multiplexer call returns, the
session delete, the worktree-removal step, and (only if requested) the
branch deletion are attempted in that order whatever the outcomes of the
individual cleanup calls, and the final result is `Ok` exactly when the
multiplexer exited successfully, independent of the cleanup outcomes. -/
theorem open_after_launch_spec (s db : Bool) (w : Graft.RmWorld) :
    (Graft.open_after_launch s true db w).2 =
      [Graft.Act.deleteSession] ++
        [if w.worktreeOnDisk then Graft.Act.wtRemove else Graft.Act.prune] ++
        (if db then [Graft.Act.branchDelete] else []) ∧
    ((Graft.open_after_launch s true db w).1 = Except.ok () ↔ s = true) := by
  rcases w with ⟨od, pk, rk, bk⟩
  cases od <;> cases pk <;> cases rk <;> cases bk <;> cases s <;>
    cases db <;> decide

/-- C7: the claim fails on the code.  With a non-directory file at the
derived worktree path (nothing registered, tools succeeding), the first
ensure-worktree call fails after pruning, leaving everything unchanged; the
second call in the unchanged state again performs a mutating `git worktree
prune` call and fails, instead of performing zero mutating calls and
succeeding. -/
theorem ensure_worktree_not_unconditionally_idempotent :
    (Graft.ensure_worktree "p"
      (Graft.ensure_worktree "p" ⟨false, some false, true, true⟩).2.1).2.2 =
        [Graft.Act.prune] ∧
    (Graft.ensure_worktree "p"
      (Graft.ensure_worktree "p" ⟨false, some false, true, true⟩).2.1).1 ≠
        Except.ok () := by
  decide

/-- C7 (amended): whenever an ensure-worktree call succeeds, an immediately
repeated call on the resulting state (no external mutation in between)
performs zero mutating tool calls, succeeds, and leaves the state
unchanged. -/
theorem ensure_worktree_idempotent (p : String) (st : Graft.GitWt)
    (h : (Graft.ensure_worktree p st).1 = Except.ok ()) :
    Graft.ensure_worktree p (Graft.ensure_worktree p st).2.1 =
      (Except.ok (), (Graft.ensure_worktree p st).2.1, []) := by
  revert h
  rcases st with ⟨reg, od, pk, ak⟩
  cases reg <;> cases pk <;> cases ak <;> rcases od with _ | (_ | _) <;>
    intro h <;>
    first
    | rfl
    | simp [Graft.ensure_worktree, Graft.wtPrune, Graft.wtForceRemove,
        Graft.wtAddResult] at h

/-- Concrete instance of C7 (amended): with the worktree registered and
materialized, the first call succeeds and the repeated call performs no
tool calls. -/
theorem ensure_worktree_idempotent_witness :
    Graft.ensure_worktree "p"
      (Graft.ensure_worktree "p" ⟨true, some true, true, true⟩).2.1 =
      (Except.ok (),
       (Graft.ensure_worktree "p" ⟨true, some true, true, true⟩).2.1, []) :=
  ensure_worktree_idempotent "p" ⟨true, some true, true, true⟩ (by decide)

/-- C10: when the derived worktree path exists but is not a directory (and
the registry prune the step issues succeeds), `ensure_worktree` returns the
error naming that path and never attempts the worktree-add tool call,
whether or not the path is registered. -/
theorem ensure_worktree_nondir_error (p : String) (st : Graft.GitWt)
    (h : st.onDisk = some false) (hp : st.pruneOk = true) :
    (Graft.ensure_worktree p st).1 =
      Except.error ("Worktree path exists but is not a directory: " ++ p) ∧
    Graft.Act.wtAdd ∉ (Graft.ensure_worktree p st).2.2 := by
  revert h hp
  rcases st with ⟨reg, od, pk, ak⟩
  intro h hp
  subst h
  subst hp
  cases reg <;> cases ak <;> simp [Graft.ensure_worktree, Graft.wtPrune]

/-- Concrete instance of C10: a registered path occupied by a plain file
makes ensure-worktree fail with the path-naming error without attempting
worktree-add. -/
theorem ensure_worktree_nondir_error_witness :
    (Graft.ensure_worktree "wt/b" ⟨true, some false, true, true⟩).1 =
      Except.error ("Worktree path exists but is not a directory: " ++ "wt/b") ∧
    Graft.Act.wtAdd ∉
      (Graft.ensure_worktree "wt/b" ⟨true, some false, true, true⟩).2.2 :=
  ensure_worktree_nondir_error "wt/b" ⟨true, some false, true, true⟩ rfl rfl

/-- The `current_branch` fold over a block equals: the last branch
attribute of the block (post-processed) if there is one, else the incoming
accumulator. -/
theorem foldBranchAcc_eq (blk : List String) :
    ∀ cb, Graft.foldBranchAcc cb blk =
      match blk.reverse.findSome? Graft.branchAttr with
      | some r => some (Graft.stripHeads r)
      | none => cb := by
  induction blk with
  | nil => intro cb; rfl
  | cons l t ih =>
      intro cb
      have step : Graft.foldBranchAcc cb (l :: t) =
          Graft.foldBranchAcc
            (match Graft.branchAttr l with
             | some rest => some (Graft.stripHeads rest)
             | none => cb) t := rfl
      rw [step, ih, List.reverse_cons, List.findSome?_append]
      cases hfs : t.reverse.findSome? Graft.branchAttr with
      | some r => simp
      | none =>
          cases hb : Graft.branchAttr l with
          | some rest => simp [List.findSome?, hb]
          | none => simp [List.findSome?, hb]

/-- The claim-side block branch is the fold started from `none`. -/
theorem blockBranch_eq_foldAcc (blk : List String) :
    Graft.blockBranch blk = Graft.foldBranchAcc none blk := by
  rw [foldBranchAcc_eq]
  cases hfs : blk.reverse.findSome? Graft.branchAttr with
  | none => simp [Graft.blockBranch, hfs]
  | some r => simp [Graft.blockBranch, hfs]

/-- The empty output has no records. -/
theorem specWorktrees_nil : Graft.specWorktrees [] = [] := by
  rw [Graft.specWorktrees.eq_def]

/-- One step of the claim-side record list. -/
theorem specWorktrees_cons (l : String) (ls : List String) :
    Graft.specWorktrees (l :: ls) =
      match Graft.stripPre "worktree " (Graft.rustTrim l) with
      | some rest =>
          (⟨rest, Graft.blockBranch
              (ls.takeWhile (fun x => ! Graft.isWtLine x))⟩ : Graft.WorktreeInfo) ::
            Graft.specWorktrees (ls.dropWhile (fun x => ! Graft.isWtLine x))
      | none => Graft.specWorktrees ls := by
  rw [Graft.specWorktrees.eq_def]

/-- Behaviour of the parser loop with a pending record: it emits that
record, with the branch fold continued over the current block, followed by
the records of the remaining blocks. -/
theorem list_worktrees_go_some (ls : List String) :
    ∀ (p : String) (cb : Option String),
      Graft.list_worktrees_go ls (some p) cb =
        ⟨p, Graft.foldBranchAcc cb
              (ls.takeWhile (fun x => ! Graft.isWtLine x))⟩ ::
          Graft.specWorktrees (ls.dropWhile (fun x => ! Graft.isWtLine x)) := by
  induction ls with
  | nil =>
      intro p cb
      simp [Graft.list_worktrees_go, Graft.foldBranchAcc, specWorktrees_nil]
  | cons l t ih =>
      intro p cb
      cases hw : Graft.stripPre "worktree " (Graft.rustTrim l) with
      | some rest =>
          have hwt : Graft.isWtLine l = true := by
            simp [Graft.isWtLine, hw]
          rw [Graft.list_worktrees_go]
          simp only [hw, List.takeWhile_cons, List.dropWhile_cons, hwt,
            Bool.not_true, Bool.false_eq_true, if_false, List.nil_append,
            List.cons_append, specWorktrees_cons, ih,
            blockBranch_eq_foldAcc]
          rfl
      | none =>
          have hwt : Graft.isWtLine l = false := by
            simp [Graft.isWtLine, hw]
          have hstep : ∀ cb' blk,
              Graft.foldBranchAcc cb' (l :: blk) =
                Graft.foldBranchAcc
                  (match Graft.branchAttr l with
                   | some r => some (Graft.stripHeads r)
                   | none => cb') blk := fun _ _ => rfl
          rw [Graft.list_worktrees_go]
          simp only [hw, List.takeWhile_cons, List.dropWhile_cons, hwt,
            Bool.not_false, if_true]
          cases hb : Graft.stripPre "branch " (Graft.rustTrim l) with
          | some rest =>
              have hattr : Graft.branchAttr l = some rest := hb
              simp only [ih, hstep, hattr]
          | none =>
              have hattr : Graft.branchAttr l = none := hb
              simp only [ih, hstep, hattr]

/-- Behaviour of the parser loop with no pending record: stray attribute
lines before the first path line are dropped. -/
theorem list_worktrees_go_none (ls : List String) :
    ∀ cb, Graft.list_worktrees_go ls none cb = Graft.specWorktrees ls := by
  induction ls with
  | nil =>
      intro cb
      simp [Graft.list_worktrees_go, specWorktrees_nil]
  | cons l t ih =>
      intro cb
      cases hw : Graft.stripPre "worktree " (Graft.rustTrim l) with
      | some rest =>
          rw [Graft.list_worktrees_go]
          simp only [hw, List.nil_append, specWorktrees_cons,
            list_worktrees_go_some, blockBranch_eq_foldAcc]
      | none =>
          rw [Graft.list_worktrees_go]
          simp only [hw, specWorktrees_cons]
          cases hb : Graft.stripPre "branch " (Graft.rustTrim l) <;>
            simp only [ih]

/-- C8: the worktree-listing parser produces exactly one record per
path-introducing line, in input order; each record's branch is the ref
named by the last branch-attribute line strictly between its path line and
the next path-introducing line (or end of output), stored with the
`refs/heads/` prefix stripped and any other ref verbatim; records before
the first path line do not exist and stray attributes there are dropped. -/
theorem list_worktrees_spec (lines : List String) :
    Graft.list_worktrees lines = Graft.specWorktrees lines :=
  list_worktrees_go_none lines none

/-- Dropping-while is the identity on a list none of whose elements satisfy
the predicate. -/
theorem dropWhile_eq_self_of_forall {p : Char → Bool} (cs : List Char)
    (h : ∀ c ∈ cs, p c = false) : cs.dropWhile p = cs := by
  cases cs with
  | nil => rfl
  | cons c t =>
      rw [List.dropWhile_cons, h c (List.mem_cons_self c t)]
      simp

/-- Trimming the first whitespace-delimited token is a no-op: the token
contains no whitespace. -/
theorem rustTrim_firstWhitespaceToken (l : String) :
    Graft.rustTrim (Graft.firstWhitespaceToken l) =
      Graft.firstWhitespaceToken l := by
  have hall : ∀ c ∈ (l.data.dropWhile Char.isWhitespace).takeWhile
      (fun c => ! c.isWhitespace), Char.isWhitespace c = false := by
    intro c hc
    simpa using List.mem_takeWhile_imp hc
  have h2 : ∀ c ∈ ((l.data.dropWhile Char.isWhitespace).takeWhile
      (fun c => ! c.isWhitespace)).reverse, Char.isWhitespace c = false :=
    fun c hc => hall c (List.mem_reverse.mp hc)
  show String.mk
      (((((l.data.dropWhile Char.isWhitespace).takeWhile
          (fun c => ! c.isWhitespace)).dropWhile
            Char.isWhitespace).reverse.dropWhile Char.isWhitespace).reverse) =
    String.mk ((l.data.dropWhile Char.isWhitespace).takeWhile
      (fun c => ! c.isWhitespace))
  rw [dropWhile_eq_self_of_forall _ hall, dropWhile_eq_self_of_forall _ h2,
    List.reverse_reverse]

/-- The first whitespace-delimited token of a line is empty exactly when
the line is blank. -/
theorem firstWhitespaceToken_empty_iff (l : String) :
    (Graft.firstWhitespaceToken l = "") ↔ Graft.isBlankLine l = true := by
  have key : ∀ xs : List Char,
      ((xs.dropWhile Char.isWhitespace).takeWhile
        (fun c => ! c.isWhitespace) = []) ↔ xs.all Char.isWhitespace := by
    intro xs
    induction xs with
    | nil => simp
    | cons c t ih =>
        cases hc : Char.isWhitespace c with
        | true => simpa [List.dropWhile_cons, hc, List.all_cons] using ih
        | false =>
            simp [List.dropWhile_cons, hc, List.takeWhile_cons, List.all_cons]
  constructor
  · intro h
    exact (key l.data).mp (congrArg String.data h)
  · intro h
    exact congrArg String.mk ((key l.data).mpr h)

/-- The per-line filtering of a successful session listing equals the
claim-side description. -/
theorem filterMap_token_eq (lines : List String) :
    (lines.filterMap (fun l =>
      if Graft.rustTrim (Graft.firstWhitespaceToken l) = "" then none
      else some (Graft.rustTrim (Graft.firstWhitespaceToken l)))) =
      Graft.specSessions lines := by
  have hfun : (fun l =>
      if Graft.rustTrim (Graft.firstWhitespaceToken l) = "" then none
      else some (Graft.rustTrim (Graft.firstWhitespaceToken l))) =
      (fun l => if Graft.firstWhitespaceToken l = "" then none
        else some (Graft.firstWhitespaceToken l)) := by
    funext x
    rw [rustTrim_firstWhitespaceToken]
  rw [hfun]
  induction lines with
  | nil => rfl
  | cons l t ih =>
      rw [List.filterMap_cons]
      cases hb : Graft.isBlankLine l with
      | true =>
          have h1 : Graft.firstWhitespaceToken l = "" :=
            (firstWhitespaceToken_empty_iff l).mpr hb
          simp [h1, hb, Graft.specSessions, List.filter_cons, ih]
      | false =>
          have h2 : ¬ Graft.firstWhitespaceToken l = "" := by
            intro hc
            rw [(firstWhitespaceToken_empty_iff l).mp hc] at hb
            cases hb
          simp [h2, hb, Graft.specSessions, List.filter_cons, ih]

/-- C9: on a successful `zellij list-sessions` run the session observer
returns the first whitespace-delimited token of each line, skipping blank
lines, and on a run that exits with a non-success status it returns the
empty list rather than an error. -/
theorem list_zellij_sessions_spec (success : Bool) (lines : List String) :
    Graft.list_zellij_sessions success lines =
      if success then Graft.specSessions lines else [] := by
  cases success with
  | false => rfl
  | true => exact filterMap_token_eq lines
